import Mathlib

/-!
# Verification of the playokBot move relay and checkerboard connector

Shallow embedding of `src/kingrow_connector.py` and `src/move_relay.py`.
Moves are strings; Python string/`int()` operations are modelled by
executable Lean functions over `List Char`; effectful operations
(file system, window system, OCR, clipboard, HTTP) are modelled by
explicit environment values passed to the embedded functions.
-/

namespace PlayokBot

/-! ## Python primitives: digits, `int()`, `str.split` -/

/-- The decimal digit characters, as produced by Python's `str` of an `int`. -/
def digitChar (d : Nat) : Char :=
  match d with
  | 0 => '0' | 1 => '1' | 2 => '2' | 3 => '3' | 4 => '4'
  | 5 => '5' | 6 => '6' | 7 => '7' | 8 => '8' | _ => '9'

/-- Numeric value of a digit character. -/
def charVal (c : Char) : Nat := c.toNat - 48

/-- Decimal value of a digit string, most significant digit first. -/
def digitsToNat (l : List Char) : Nat :=
  l.foldl (fun acc c => 10 * acc + charVal c) 0

/-- Decimal value of a reversed digit string (least significant digit first). -/
def digitsValRev : List Char → Nat
  | [] => 0
  | c :: r => charVal c + 10 * digitsValRev r

/-- Decimal rendering of a positive number, least significant digit first.
The first argument is recursion fuel; `n` itself is always enough. -/
def natReprAux : Nat → Nat → List Char
  | 0, _ => []
  | _, 0 => []
  | fuel + 1, n + 1 => digitChar ((n + 1) % 10) :: natReprAux fuel ((n + 1) / 10)

/-- Python's `str` of a natural number. -/
def natRepr (n : Nat) : List Char :=
  if n = 0 then [('0')] else (natReprAux n n).reverse

/-- Whitespace stripped by Python's `int()` / `str.strip`. -/
def isPyWS (c : Char) : Bool :=
  c = ' ' || c = '\t' || c = '\n' || c = '\r' || c = '\x0b' || c = '\x0c'

/-- Python `str.strip()` on a character list. -/
def stripWS (l : List Char) : List Char :=
  ((l.dropWhile isPyWS).reverse.dropWhile isPyWS).reverse

/-- Python's `int(s)`: optional surrounding whitespace, optional sign, a
non-empty run of decimal digits; `none` models the `ValueError` raised
otherwise (ASCII inputs; underscores and non-ASCII digits are not modelled). -/
def pyIntChars (l0 : List Char) : Option Int :=
  match stripWS l0 with
  | '-' :: rest =>
      if !rest.isEmpty && rest.all Char.isDigit then some (-(digitsToNat rest : Int)) else none
  | '+' :: rest =>
      if !rest.isEmpty && rest.all Char.isDigit then some ((digitsToNat rest : Int)) else none
  | l =>
      if !l.isEmpty && l.all Char.isDigit then some ((digitsToNat l : Int)) else none

/-- Python's `int(s)` on a string. -/
def pyInt? (s : String) : Option Int := pyIntChars s.data

/-- Python's `str.split(sep)` for a one-character separator: keeps empty
fields and always returns at least one field. -/
def splitChars (sep : Char) : List Char → List (List Char)
  | [] => [[]]
  | c :: rest =>
      let r := splitChars sep rest
      if c = sep then [] :: r
      else
        match r with
        | h :: t => (c :: h) :: t
        | [] => [[c]]

/-- Python's `sep.join(parts)` for a one-character separator. -/
def joinSep (sep : Char) : List (List Char) → List Char
  | [] => []
  | [p] => p
  | p :: ps => p ++ sep :: joinSep sep ps

theorem splitChars_ne_nil (sep : Char) (l : List Char) : splitChars sep l ≠ [] := by
  cases l with
  | nil => simp [splitChars]
  | cons c rest =>
      simp only [splitChars]
      split
      · simp
      · split <;> simp

theorem joinSep_splitChars (sep : Char) (l : List Char) :
    joinSep sep (splitChars sep l) = l := by
  induction l with
  | nil => rfl
  | cons c rest ih =>
      simp only [splitChars]
      split
      · rename_i hc
        rcases hr : splitChars sep rest with _ | ⟨h, t⟩
        · exact absurd hr (splitChars_ne_nil sep rest)
        · rw [hr] at ih
          cases t with
          | nil => simp only [joinSep] at ih ⊢; simp [hc, ih]
          | cons t0 ts => simp only [joinSep] at ih ⊢; simp [hc, ih]
      · rcases hr : splitChars sep rest with _ | ⟨h, t⟩
        · exact absurd hr (splitChars_ne_nil sep rest)
        · rw [hr] at ih
          cases t with
          | nil => simp only [joinSep] at ih ⊢; simp [ih]
          | cons t0 ts => simp only [joinSep] at ih ⊢; simp [ih]

/-! ### Round-trip facts about decimal rendering and `int()` -/

theorem charVal_digitChar (d : Nat) (h : d < 10) : charVal (digitChar d) = d := by
  interval_cases d <;> decide

theorem isDigit_digitChar (d : Nat) (h : d < 10) : (digitChar d).isDigit = true := by
  interval_cases d <;> decide

theorem natReprAux_digits (fuel n : Nat) :
    ∀ c ∈ natReprAux fuel n, c.isDigit = true := by
  induction fuel generalizing n with
  | zero => simp [natReprAux]
  | succ fuel ih =>
      cases n with
      | zero => simp [natReprAux]
      | succ m =>
          intro c hc
          simp only [natReprAux, List.mem_cons] at hc
          rcases hc with h | h
          · subst h; exact isDigit_digitChar _ (Nat.mod_lt _ (by omega))
          · exact ih _ c h

theorem digitsValRev_natReprAux (fuel n : Nat) (h : n ≤ fuel) :
    digitsValRev (natReprAux fuel n) = n := by
  induction fuel generalizing n with
  | zero =>
      have : n = 0 := Nat.le_zero.mp h
      subst this; simp [natReprAux, digitsValRev]
  | succ fuel ih =>
      cases n with
      | zero => simp [natReprAux, digitsValRev]
      | succ m =>
          have hdiv : (m + 1) / 10 ≤ fuel := by
            have := Nat.div_lt_self (Nat.succ_pos m) (by omega : 1 < 10)
            omega
          simp only [natReprAux, digitsValRev]
          rw [charVal_digitChar _ (Nat.mod_lt _ (by omega)), ih _ hdiv]
          omega

theorem digitsToNat_reverse (l : List Char) :
    digitsToNat l.reverse = digitsValRev l := by
  induction l with
  | nil => rfl
  | cons c r ih =>
      simp only [digitsToNat, List.reverse_cons, List.foldl_append, List.foldl_cons,
        List.foldl_nil, digitsValRev]
      simp only [digitsToNat] at ih
      omega

theorem natRepr_digits (n : Nat) : ∀ c ∈ natRepr n, c.isDigit = true := by
  intro c hc
  unfold natRepr at hc
  split at hc
  · simp at hc; subst hc; decide
  · exact natReprAux_digits n n c (List.mem_reverse.mp hc)

theorem natRepr_ne_nil (n : Nat) : natRepr n ≠ [] := by
  unfold natRepr
  split
  · simp
  · rename_i h
    cases n with
    | zero => exact absurd rfl h
    | succ m => simp [natReprAux]

theorem digitsToNat_natRepr (n : Nat) : digitsToNat (natRepr n) = n := by
  unfold natRepr
  split
  · rename_i h; subst h; decide
  · rw [digitsToNat_reverse, digitsValRev_natReprAux n n (le_refl n)]

theorem stripWS_of_digits (l : List Char) (h : ∀ c ∈ l, c.isDigit = true) :
    stripWS l = l := by
  have hnw : ∀ c ∈ l, isPyWS c = false := by
    intro c hc
    have := h c hc
    revert this
    unfold Char.isDigit isPyWS
    intro hd
    simp only [Bool.or_eq_false_iff, decide_eq_false_iff_not]
    refine ⟨⟨⟨⟨⟨?_, ?_⟩, ?_⟩, ?_⟩, ?_⟩, ?_⟩ <;>
      (intro he; subst he; simp_all)
  unfold stripWS
  have h1 : List.dropWhile isPyWS l = l :=
    List.dropWhile_eq_self_iff.mpr (fun hl => by
      have hm : l.get ⟨0, hl⟩ ∈ l := List.get_mem _ _ _
      simpa using hnw _ hm)
  rw [h1]
  have h2 : List.dropWhile isPyWS l.reverse = l.reverse :=
    List.dropWhile_eq_self_iff.mpr (fun hl => by
      have hm : l.reverse.get ⟨0, hl⟩ ∈ l := List.mem_reverse.mp (List.get_mem _ _ _)
      simpa using hnw _ hm)
  rw [h2, List.reverse_reverse]

theorem pyIntChars_digits (l : List Char) (hne : l ≠ [])
    (hd : ∀ c ∈ l, c.isDigit = true) :
    pyIntChars l = some ((digitsToNat l : Int)) := by
  unfold pyIntChars
  rw [stripWS_of_digits l hd]
  cases l with
  | nil => exact absurd rfl hne
  | cons c cs =>
      have hc : c.isDigit = true := hd c (by simp)
      have hcm : c ≠ '-' := by intro h; subst h; simp [Char.isDigit] at hc
      have hcp : c ≠ '+' := by intro h; subst h; simp [Char.isDigit] at hc
      have hall : (c :: cs).all Char.isDigit = true := List.all_eq_true.mpr hd
      split
      · rename_i heq; rw [List.cons.injEq] at heq; exact absurd heq.1 hcm
      · rename_i heq; rw [List.cons.injEq] at heq; exact absurd heq.1 hcp
      · simp [hall]

theorem pyIntChars_natRepr (n : Nat) : pyIntChars (natRepr n) = some ((n : Int)) := by
  rw [pyIntChars_digits (natRepr n) (natRepr_ne_nil n) (natRepr_digits n),
    digitsToNat_natRepr]

/-! ## A small backtracking matcher for the fixed regular expressions of the source

`kingrow_connector.py` uses three patterns:
`\b\d{1,2}[-x]\d{1,2}(?:x\d{1,2})*\b`, `\b[A-H][1-8][-x][A-H][1-8]\b` and
`\b\d{1,2}\s*[-x]\s*\d{1,2}\b`. A pattern is modelled as a function from an
input suffix to the candidate remaining suffixes after a match, listed in
the backtracking priority order of Python's `re` engine. -/

def Pat : Type := List Char → List (List Char)

/-- Single character matching a class. -/
def pchar (p : Char → Bool) : Pat := fun s =>
  match s with
  | c :: r => if p c then [r] else []
  | [] => []

/-- Sequencing. -/
def pseq (p q : Pat) : Pat := fun s => (p s).flatMap q

/-- Greedy `{1,2}`: prefer two occurrences, then one. -/
def prep12 (p : Pat) : Pat := fun s => pseq p p s ++ p s

/-- Greedy `*` (fuelled; every repetition of the patterns used here consumes
at least one character, so fuel `s.length` is never exhausted). -/
def pstarAux (p : Pat) : Nat → List Char → List (List Char)
  | 0, s => [s]
  | fuel + 1, s =>
      ((p s).filter (fun r => r.length < s.length)).flatMap (pstarAux p fuel) ++ [s]

def pstar (p : Pat) : Pat := fun s => pstarAux p s.length s

/-- Python's `\w` on ASCII text. -/
def isWordChar (c : Char) : Bool := c.isAlphanum || c = '_'

/-- `\b` immediately before a word character: start of input or a
non-word character to the left. -/
def boundaryBefore (prev : Option Char) : Bool :=
  match prev with
  | none => true
  | some c => !isWordChar c

/-- `\b` immediately after a word character: end of input or a
non-word character to the right. -/
def boundaryAfterOk (rest : List Char) : Bool :=
  match rest with
  | [] => true
  | c :: _ => !isWordChar c

/-- Try a `\b pat \b` match anchored at the current position (`prev` is the
character to the left, if any); returns the length of the match. -/
def matchHere (pat : Pat) (prev : Option Char) (s : List Char) : Option Nat :=
  if boundaryBefore prev then
    (pat s).findSome? (fun r => if boundaryAfterOk r then some (s.length - r.length) else none)
  else none

/-- `re.search`: leftmost match wins; returns the matched text. -/
def searchAux (pat : Pat) : Option Char → List Char → Option (List Char)
  | prev, [] =>
      match matchHere pat prev [] with
      | some _ => some []
      | none => none
  | prev, c :: rest =>
      match matchHere pat prev (c :: rest) with
      | some n => some ((c :: rest).take n)
      | none => searchAux pat (some c) rest

def reSearch (pat : Pat) (s : String) : Option String :=
  (searchAux pat none s.data).map (fun l => l.asString)

/-- `re.findall`: all non-overlapping matches, left to right (fuelled). -/
def findallAux (pat : Pat) : Nat → Option Char → List Char → List (List Char)
  | 0, _, _ => []
  | fuel + 1, prev, s =>
      match matchHere pat prev s with
      | some (n + 1) =>
          (s.take (n + 1)) ::
            findallAux pat fuel (some ((s.take (n + 1)).getLastD (' '))) (s.drop (n + 1))
      | _ =>
          match s with
          | [] => []
          | c :: rest => findallAux pat fuel (some c) rest

def reFindall (pat : Pat) (s : String) : List String :=
  (findallAux pat (s.data.length + 1) none s.data).map (fun l => l.asString)

/-- `\d`. -/
def digitP : Pat := pchar Char.isDigit

/-- `\d{1,2}`. -/
def digit12 : Pat := prep12 digitP

/-- `[-x]`. -/
def sepP : Pat := pchar (fun c => c = '-' || c = 'x')

/-- `x`. -/
def xP : Pat := pchar (fun c => c = 'x')

/-- `\s` (ASCII). -/
def wsP : Pat := pchar isPyWS

/-- `[A-H]`. -/
def fileP : Pat := pchar (fun c => 'A' ≤ c && c ≤ 'H')

/-- `[1-8]`. -/
def rankP : Pat := pchar (fun c => '1' ≤ c && c ≤ '8')

/-- `\d{1,2}[-x]\d{1,2}(?:x\d{1,2})*` — between `\b`s, the numeric move
pattern used for log files, clipboard, temp files and OCR. -/
def movePat : Pat := pseq digit12 (pseq sepP (pseq digit12 (pstar (pseq xP digit12))))

/-- `[A-H][1-8][-x][A-H][1-8]` — the algebraic OCR pattern. -/
def algebraicPat : Pat := pseq fileP (pseq rankP (pseq sepP (pseq fileP rankP)))

/-- `\d{1,2}\s*[-x]\s*\d{1,2}` — the spaced OCR pattern. -/
def spacedPat : Pat := pseq digit12 (pseq (pstar wsP) (pseq sepP (pseq (pstar wsP) digit12)))

/-! ## Calibration map and move/coordinate conversion (`kingrow_connector.py`) -/

/-- A Python dict key: calibration data loaded from JSON has string keys,
the built-in default map has int keys. -/
inductive PyKey where
  | int (i : Int)
  | str (s : String)
deriving DecidableEq

abbrev Coord := Int × Int

abbrev SquareMap := List (PyKey × Coord)

/-- `square_positions.get(k)` for an int key `k`. -/
def dictGetInt (m : SquareMap) (k : Int) : Option Coord :=
  m.findSome? (fun kv => if kv.1 = PyKey.int k then some kv.2 else none)

/-- Lines 117-118 of `kingrow_connector.py`:
`list(square_positions.keys())[0]` raises `IndexError` on an empty dict
(modelled by `none`), and when the first key is a string every key is passed
through `int(...)`, which raises on a non-numeric key (also `none`). -/
def normalizeIfStr (sp : SquareMap) : Option SquareMap :=
  match sp.head? with
  | none => none
  | some (PyKey.str _, _) =>
      sp.mapM (fun kv =>
        match kv.1 with
        | PyKey.str s => (pyInt? s).map (fun i => (PyKey.int i, kv.2))
        | PyKey.int i => some ((PyKey.int i, kv.2)))
  | some (PyKey.int _, _) => some sp

/-- The built-in default coordinates of `load_calibration_data`
(lines 99-108 of `kingrow_connector.py`). -/
def default_square_positions : SquareMap :=
  [(PyKey.int 1, (50, 50)), (PyKey.int 2, (150, 50)),
   (PyKey.int 3, (250, 50)), (PyKey.int 4, (350, 50)),
   (PyKey.int 5, (100, 100)), (PyKey.int 6, (200, 100)),
   (PyKey.int 7, (300, 100)), (PyKey.int 8, (400, 100)),
   (PyKey.int 9, (50, 150)), (PyKey.int 10, (150, 150)),
   (PyKey.int 11, (250, 150)), (PyKey.int 12, (350, 150)),
   (PyKey.int 13, (100, 200)), (PyKey.int 14, (200, 200)),
   (PyKey.int 15, (300, 200)), (PyKey.int 16, (400, 200)),
   (PyKey.int 17, (50, 250)), (PyKey.int 18, (150, 250)),
   (PyKey.int 19, (250, 250)), (PyKey.int 20, (350, 250)),
   (PyKey.int 21, (100, 300)), (PyKey.int 22, (200, 300)),
   (PyKey.int 23, (300, 300)), (PyKey.int 24, (400, 300)),
   (PyKey.int 25, (50, 350)), (PyKey.int 26, (150, 350)),
   (PyKey.int 27, (250, 350)), (PyKey.int 28, (350, 350)),
   (PyKey.int 29, (100, 400)), (PyKey.int 30, (200, 400)),
   (PyKey.int 31, (300, 400)), (PyKey.int 32, (400, 400))]

/-- State of `checkerboard_calibration.json` on disk: missing, unreadable
(open or `json.load` raises — caught, falls through to the default), or
present with the value of `data.get("square_positions", {})`. -/
inductive CalibFile where
  | absent
  | unreadable
  | present (sp : SquareMap)

/-- `load_calibration_data` (lines 88-108). -/
def load_calibration_data : CalibFile → SquareMap
  | CalibFile.present sp => sp
  | CalibFile.absent => default_square_positions
  | CalibFile.unreadable => default_square_positions

/-- The field split of `convert_move_to_coordinates` (lines 120-123):
split on `x` when the token contains one, else on `-`. -/
def parseParts (move : String) : List (List Char) :=
  if move.data.contains ('x') then splitChars 'x' move.data else splitChars '-' move.data

/-- The notation-level part of `convert_move_to_coordinates` (lines 120-131):
`from = int(parts[0])`, `to = int(parts[-1])`, and `parts[1:]` — the
destination included — when there are more than two fields; `none` models the
`ValueError` of `int(...)` on a malformed field. -/
def parse_move (move : String) : Option (Int × Int × List String) :=
  match pyIntChars ((parseParts move).headD []), pyIntChars ((parseParts move).getLastD []) with
  | some a, some b =>
      some (a, b,
        if 2 < (parseParts move).length then
          ((parseParts move).drop 1).map (fun l => l.asString)
        else [])
  | _, _ => none

/-- `convert_move_to_coordinates` (lines 110-135) over an already-loaded
square map; any exception inside the `try` yields `(None, None, [])`. -/
def convert_move_to_coordinates (sp : SquareMap) (move : String) :
    Option Coord × Option Coord × List String :=
  match normalizeIfStr sp with
  | none => (none, none, [])
  | some m =>
      match parse_move move with
      | none => (none, none, [])
      | some (a, b, caps) => (dictGetInt m a, dictGetInt m b, caps)

/-! ## The automation executor (`execute_move_in_checkerboard`) -/

/-- Observable automation effects: a `pyautogui.click` at absolute screen
coordinates, and the fixed `time.sleep(0.3)` settle delay after it. -/
inductive Event where
  | click (x y : Int)
  | settle
deriving DecidableEq

/-- Window-system state: the located checkerboard window's `(left, top)`
origin if any titled window is found, and whether `window.activate()`
succeeds (when it raises, the offsets stay `(0, 0)`; lines 152-162). -/
structure WinEnv where
  window : Option Coord
  activateOk : Bool

/-- The `(window_x, window_y)` offset actually applied (lines 152-162). -/
def winOrigin (w : WinEnv) : Coord :=
  match w.window with
  | some lt => if w.activateOk then lt else (0, 0)
  | none => (0, 0)

/-- Result of the executor: return value, emitted clicks/delays in order,
and log messages in order. -/
structure ExecResult where
  ok : Bool
  events : List Event
  logs : List String
deriving DecidableEq

/-- `execute_move_in_checkerboard` (lines 137-196). For a token with jump
fields (`parts[1:]`, which end with the destination) it clicks the `from`
square and then each jump field's square, looking each jump up through
`convert_move_to_coordinates("1-" + jump)`; without jump fields it clicks
`from` then `to`. A missing endpoint coordinate returns `False` with no
clicks. -/
def execute_move_in_checkerboard (w : WinEnv) (cf : CalibFile) (move : String) : ExecResult :=
  match convert_move_to_coordinates (load_calibration_data cf) move with
  | (some fc, some tc, jumps) =>
      ⟨true,
        [Event.click ((winOrigin w).1 + fc.1) ((winOrigin w).2 + fc.2), Event.settle] ++
          (if jumps.isEmpty then
            [Event.click ((winOrigin w).1 + tc.1) ((winOrigin w).2 + tc.2), Event.settle]
          else
            jumps.flatMap (fun j =>
              match (convert_move_to_coordinates (load_calibration_data cf) (("1-") ++ j)).2.1 with
              | some jc =>
                  [Event.click ((winOrigin w).1 + jc.1) ((winOrigin w).2 + jc.2), Event.settle]
              | none => [])),
        [("Move executed successfully in checkerboard")]⟩
  | _ => ⟨false, [], [("Could not convert move to coordinates")]⟩

/-! ## The move-detection aggregator (`get_engine_move` and its methods) -/

/-- `str.replace(' ', '')`, applied to the OCR match (line 285). -/
def stripSpaces (s : String) : String := (s.data.filter (fun c => !(c = ' '))).asString

/-- Screen state for `detect_move_from_screen` (lines 232-297): either no
checkerboard window is found, or one is, with the OCR text recovered from
each captured region (`none`: screen capture or OCR raised — that region is
skipped). -/
inductive ScreenEnv where
  | noWindow
  | window (texts : List (Option String))

/-- `detect_move_from_screen` (lines 232-297): for each region in order, for
each of the three patterns in order, `re.findall`; the last match of the
first non-empty result is returned with spaces removed. -/
def detect_move_from_screen : ScreenEnv → Option String
  | ScreenEnv.noWindow => none
  | ScreenEnv.window texts =>
      texts.findSome? (fun t? =>
        t?.bind (fun t =>
          [movePat, algebraicPat, spacedPat].findSome? (fun p =>
            (reFindall p t).getLast?.map stripSpaces)))

/-- Clipboard state for `monitor_clipboard_for_move` (lines 299-324):
`ok = false` models `pyperclip` being unavailable or raising. -/
structure ClipEnv where
  ok : Bool
  before : String
  after : String

/-- `monitor_clipboard_for_move` (lines 299-324). -/
def monitor_clipboard_for_move (e : ClipEnv) : Option String :=
  if !e.ok then none
  else if e.after = e.before then none
  else reSearch movePat e.after

/-- Scanning one log file's content (lines 346-357): strip, split into
lines, scan the last five lines in reverse for the numeric move pattern. -/
def scanLogContent (content : String) : Option String :=
  let lines := splitChars '\n' (stripWS content.data)
  ((lines.drop (lines.length - 5)).reverse).findSome? (fun line =>
    reSearch movePat (stripWS line).asString)

/-- `get_engine_move` (lines 326-398): log files, then screen OCR, then
clipboard, then temp files; each candidate file is `none` when missing or
unreadable. -/
def get_engine_move (logs : List (Option String)) (screen : ScreenEnv)
    (clip : ClipEnv) (temps : List (Option String)) : Option String :=
  match logs.findSome? (fun c? => c?.bind scanLogContent) with
  | some m => some m
  | none =>
      match detect_move_from_screen screen with
      | some m => some m
      | none =>
          match monitor_clipboard_for_move clip with
          | some m => some m
          | none =>
              temps.findSome? (fun c? =>
                c?.bind (fun c => reSearch movePat (stripWS c.data).asString))

/-! ## The move resolver (`get_checkerboard_move`) -/

/-- Process-table state for `find_checkerboard_exe` (lines 53-86). -/
structure ProcEnv where
  running : Bool
  launchablePath : Bool
  raised : Bool

/-- `find_checkerboard_exe` (lines 53-86): true when the process is already
running or some candidate path exists and is launched; false when nothing is
found or anything raises. -/
def find_checkerboard_exe (e : ProcEnv) : Bool :=
  if e.raised then false
  else if e.running then true
  else e.launchablePath

/-- `wait_for_engine_response` (lines 198-221) returns `True` after its
bounded wait in every case; only an exception makes it return `False`. -/
def wait_for_engine_response (raised : Bool) : Bool := !raised

/-- The whole environment one `getMove` request sees. -/
structure ResolverEnv where
  raised : Bool
  proc : ProcEnv
  win : WinEnv
  calib : CalibFile
  waitRaised : Bool
  logs : List (Option String)
  screen : ScreenEnv
  clip : ClipEnv
  temps : List (Option String)

/-- `get_checkerboard_move` (lines 400-431). `raised` models an exception
reaching the outer `try`. The `history` argument is received but never used
by the source. Note `if engine_move:` — an empty detected string would be
falsy and fall to the default. -/
def get_checkerboard_move (env : ResolverEnv) (opponent_move : String)
    (history : List String) : String :=
  if env.raised then ("1-5")
  else if !find_checkerboard_exe env.proc then ("1-5")
  else if !(execute_move_in_checkerboard env.win env.calib opponent_move).ok then ("1-5")
  else if !wait_for_engine_response env.waitRaised then ("1-5")
  else
    match get_engine_move env.logs env.screen env.clip env.temps with
    | some m => if m = ("") then ("1-5") else m
    | none => ("1-5")

/-! ## The channel protocol (`read_message` and `main`) -/

/-- `int.from_bytes(bytes, byteorder='little')`. -/
def fromLE (bytes : List Nat) : Nat := bytes.foldr (fun b acc => b + 256 * acc) 0

/-- The decoded value of one JSON payload, as `main` consumes it:
its Python truthiness, `message.get('command')`, `message.get('currentMove', '')`
and `message.get('history', [])`. -/
structure IncomingMsg where
  isTruthy : Bool
  command : Option String
  currentMove : Option String
  history : List String
deriving DecidableEq

/-- `read_message` (lines 28-39) on a byte stream: empty stream is
end-of-stream (`None`); otherwise a 4-byte little-endian length prefix is
read, then that many payload bytes, and the payload is decoded; `decode`
models `json.loads(payload.decode('utf-8'))`, returning `none` when it
raises (the `except` path, which also returns `None`). Returns the value
and the unconsumed remainder of the stream. -/
def read_message (decode : List Nat → Option IncomingMsg) (stream : List Nat) :
    Option IncomingMsg × List Nat :=
  match stream with
  | [] => (none, [])
  | _ :: _ =>
      let rest := stream.drop 4
      (decode (rest.take (fromLE (stream.take 4))), rest.drop (fromLE (stream.take 4)))

/-- A message written to stdout by the connector. `main` only ever builds
`{'move': best_move}`; `errorResp` exists so that the spec's claimed
`{type: error, ...}` responses are expressible. -/
inductive SentMsg where
  | moveResp (move : String)
  | errorResp (message : String)
deriving DecidableEq

/-- Placeholder environment (used only past the modelled stream's end). -/
def defaultResolverEnv : ResolverEnv :=
  ⟨true, ⟨false, false, true⟩, ⟨none, false⟩, CalibFile.absent, true,
    [], ScreenEnv.noWindow, ⟨false, (""), ("")⟩, []⟩

/-- The body of `main`'s `while True` loop (lines 437-452), fuelled; each
iteration consumes at least one byte, so fuel `stream.length` is exact.
A `None` (or falsy) message breaks the loop; a `getMove` command resolves
against the next per-request environment and sends `{'move': ...}`; any
other message is not answered. -/
def runLoop (decode : List Nat → Option IncomingMsg) :
    Nat → List ResolverEnv → List Nat → List SentMsg
  | 0, _, _ => []
  | fuel + 1, envs, stream =>
      match read_message decode stream with
      | (none, _) => []
      | (some msg, rest) =>
          if !msg.isTruthy then []
          else if msg.command = some ("getMove") then
            SentMsg.moveResp
                (get_checkerboard_move (envs.headD defaultResolverEnv)
                  (msg.currentMove.getD ("")) msg.history) ::
              runLoop decode fuel envs.tail rest
          else runLoop decode fuel envs rest

/-- `main` (lines 433-459): run the loop over the whole input stream. -/
def mainLoop (decode : List Nat → Option IncomingMsg) (envs : List ResolverEnv)
    (stream : List Nat) : List SentMsg :=
  runLoop decode stream.length envs stream

/-! ## The HTTP relay (`move_relay.py`)

In the source, `class MoveHandler(BaseHTTPRequestHandler)` defines exactly
two attributes — `_send` and `do_OPTIONS` (lines 12-23). The function
`do_POST` (lines 25-53) is written at module level, at column 0, so it is
NOT a method of `MoveHandler`; `BaseHTTPRequestHandler` therefore answers
any `POST` with `send_error(501, "Unsupported method ('POST')")`. -/

/-- A response issued by the relay server: a JSON reply via `_send`, or the
plain-HTTP error page `BaseHTTPRequestHandler.send_error` produces for a
verb with no `do_<verb>` method. -/
inductive RelayObj where
  | empty
  | statusOk
  | errorField (message : String)
deriving DecidableEq

inductive RelayResponse where
  | json (code : Nat) (obj : RelayObj)
  | httpError (code : Nat) (message : String)
deriving DecidableEq

/-- The attribute names defined in the body of `class MoveHandler`. -/
def moveHandlerMethods : List String := [("_send"), ("do_OPTIONS")]

/-- Result of `json.loads` on the request body, as `do_POST` consumes it:
either a raised `JSONDecodeError`, or an object with `data.get('move')`. -/
inductive PostPayload where
  | badJson
  | obj (move : Option String)

/-- One incoming POST request: its `Content-Length`, its payload, and
`exn`, modelling any other exception raised while handling (e.g. a
non-numeric `Content-Length` header making `int(...)` raise). -/
structure PostRequest where
  contentLength : Nat
  payload : PostPayload
  exn : Option String

/-- The module-level `do_POST` function of `move_relay.py` (lines 25-53),
i.e. the behaviour the handler was evidently intended to have: the response
sent, and whether a `run_move_sequence` worker thread was started. -/
def relay_do_POST (r : PostRequest) : RelayResponse × Bool :=
  match r.exn with
  | some e => (RelayResponse.json 500 (RelayObj.errorField e), false)
  | none =>
      if r.contentLength = 0 then
        (RelayResponse.json 400 (RelayObj.errorField ("Empty request")), false)
      else
        match r.payload with
        | PostPayload.badJson =>
            (RelayResponse.json 400 (RelayObj.errorField ("Invalid JSON")), false)
        | PostPayload.obj move =>
            match move with
            | none => (RelayResponse.json 400 (RelayObj.errorField ("No move in request")), false)
            | some m =>
                if m = ("") then
                  (RelayResponse.json 400 (RelayObj.errorField ("No move in request")), false)
                else (RelayResponse.json 200 RelayObj.statusOk, true)

/-- How the server actually dispatches a request with the given verb
(`BaseHTTPRequestHandler.handle_one_request` semantics): call `do_<verb>`
if `MoveHandler` defines it, else reply 501. `do_OPTIONS` replies
`_send(200)` with no body (line 22-23). -/
def handleRelayRequest (verb : String) (r : PostRequest) : RelayResponse × Bool :=
  if moveHandlerMethods.contains (("do_") ++ verb) then
    if verb = ("OPTIONS") then (RelayResponse.json 200 RelayObj.empty, false)
    else (RelayResponse.httpError 501 (("Unsupported method ('") ++ verb ++ ("')")), false)
  else (RelayResponse.httpError 501 (("Unsupported method ('") ++ verb ++ ("')")), false)

/-! ## Spec-side definitions -/

/-- The spec's move-notation grammar (§4.4, glossary): a token splits on `-`
or `x` into at least two fields, every field a decimal square index in
`[1, 32]`. Written from the spec's words, for comparison with the code. -/
def spec_valid_move_token (t : String) : Bool :=
  let parts := if t.data.contains ('x') then splitChars 'x' t.data else splitChars '-' t.data
  decide (2 ≤ parts.length) &&
    parts.all (fun p =>
      !p.isEmpty && p.all Char.isDigit &&
        decide (1 ≤ digitsToNat p) && decide (digitsToNat p ≤ 32))

/-- Modelled from the spec: §4.4 `format(move) -> token` — the repository has
no serialisation function (only the parse side inside
`convert_move_to_coordinates`), so `format` is taken from the spec's words:
simple moves render as `from-to`, capturing moves as the fields joined by
`x` after `from`. It is adapted to the code's parse representation, whose
capture component (`parts[1:]`) already ends with the destination, so the
destination is not appended separately. -/
def format_move (a : Nat) (caps : List String) (b : Nat) : String :=
  if caps.isEmpty then ((natRepr a).asString) ++ ("-") ++ ((natRepr b).asString)
  else ((natRepr a).asString) ++ ("x") ++ ((joinSep 'x' (caps.map String.data)).asString)

/-! ## Helper lemmas -/

theorem string_data_append (s t : String) : (s ++ t).data = s.data ++ t.data := by
  cases s; cases t; rfl

theorem splitChars_append (sep : Char) (p l : List Char) (h : List Char) (t : List (List Char))
    (hp : ∀ c ∈ p, ¬ c = sep) (hl : splitChars sep l = h :: t) :
    splitChars sep (p ++ l) = (p ++ h) :: t := by
  induction p with
  | nil => simpa using hl
  | cons c p' ih =>
      have hc : ¬ c = sep := hp c (by simp)
      have ih' := ih (fun d hd => hp d (by simp [hd]))
      simp only [List.cons_append, splitChars, if_neg hc, List.append_eq, ih']

theorem splitChars_no_sep (sep : Char) (p : List Char) (hp : ∀ c ∈ p, ¬ c = sep) :
    splitChars sep p = [p] := by
  have := splitChars_append sep p [] [] [] hp rfl
  simpa using this

theorem splitChars_joinSep (sep : Char) (parts : List (List Char)) (hne : parts ≠ [])
    (hsep : ∀ p ∈ parts, ∀ c ∈ p, ¬ c = sep) :
    splitChars sep (joinSep sep parts) = parts := by
  induction parts with
  | nil => exact absurd rfl hne
  | cons p ps ih =>
      cases ps with
      | nil => simpa [joinSep] using splitChars_no_sep sep p (hsep p (by simp))
      | cons q qs =>
          have hrec : splitChars sep (joinSep sep (q :: qs)) = q :: qs :=
            ih (by simp) (fun r hr => hsep r (by simp [hr]))
          have hstep : splitChars sep (sep :: joinSep sep (q :: qs)) =
              [] :: q :: qs := by
            simp [splitChars, hrec]
          have := splitChars_append sep p (sep :: joinSep sep (q :: qs)) [] (q :: qs)
            (hsep p (by simp)) hstep
          simpa [joinSep] using this

theorem natRepr_no_char (n : Nat) (c : Char) (hc : c.isDigit = false) :
    ∀ d ∈ natRepr n, ¬ d = c := by
  intro d hd he
  subst he
  rw [natRepr_digits n d hd] at hc
  exact Bool.noConfusion hc

theorem mem_joinSep (sep : Char) (parts : List (List Char)) (c : Char)
    (hc : c ∈ joinSep sep parts) : c = sep ∨ ∃ p ∈ parts, c ∈ p := by
  induction parts with
  | nil => simp [joinSep] at hc
  | cons p ps ih =>
      cases ps with
      | nil => exact Or.inr ⟨p, by simp, by simpa [joinSep] using hc⟩
      | cons q qs =>
          simp only [joinSep, List.mem_append, List.mem_cons] at hc
          rcases hc with h | h | h
          · exact Or.inr ⟨p, by simp, h⟩
          · exact Or.inl h
          · rcases ih h with h' | ⟨r, hr, hcr⟩
            · exact Or.inl h'
            · exact Or.inr ⟨r, by simp [hr], hcr⟩

theorem contains_iff_mem (l : List Char) (c : Char) : l.contains c = true ↔ c ∈ l := by
  simp [List.contains]

theorem read_message_rest_lt (decode : List Nat → Option IncomingMsg)
    (stream : List Nat) (msg : IncomingMsg) (rest : List Nat)
    (h : read_message decode stream = (some msg, rest)) : rest.length < stream.length := by
  cases stream with
  | nil => simp [read_message] at h
  | cons b bs =>
      simp only [read_message] at h
      have hr : rest = (List.drop 4 (b :: bs)).drop (fromLE ((b :: bs).take 4)) :=
        (Prod.mk.injEq _ _ _ _ ▸ h).2.symm
      subst hr
      simp only [List.length_drop, List.length_cons]
      omega

theorem runLoop_fuel_congr (decode : List Nat → Option IncomingMsg) :
    ∀ f1 f2 (envs : List ResolverEnv) (stream : List Nat),
      stream.length ≤ f1 → stream.length ≤ f2 →
      runLoop decode f1 envs stream = runLoop decode f2 envs stream := by
  intro f1
  induction f1 with
  | zero =>
      intro f2 envs stream h1 _
      have hs : stream = [] := List.length_eq_zero.mp (Nat.le_zero.mp h1)
      subst hs
      cases f2 <;> simp [runLoop, read_message]
  | succ f1 ih =>
      intro f2 envs stream h1 h2
      cases f2 with
      | zero =>
          have hs : stream = [] := List.length_eq_zero.mp (Nat.le_zero.mp h2)
          subst hs
          simp [runLoop, read_message]
      | succ g =>
          simp only [runLoop]
          rcases hr : read_message decode stream with ⟨m?, rest⟩
          cases m? with
          | none => rfl
          | some msg =>
              have hlt : rest.length < stream.length :=
                read_message_rest_lt decode stream msg rest hr
              cases htr : msg.isTruthy with
              | false => simp [htr]
              | true =>
                  simp only [htr, Bool.not_true, Bool.false_eq_true, if_false]
                  by_cases hc : msg.command = some (("getMove"))
                  · rw [if_pos hc, if_pos hc,
                      ih g envs.tail rest (by omega) (by omega)]
                  · rw [if_neg hc, if_neg hc,
                      ih g envs rest (by omega) (by omega)]

/-- Coordinates of each jump field, as `execute_move_in_checkerboard`
resolves them through `convert_move_to_coordinates("1-" + jump)[1]`. -/
def jumpCoords (sp : SquareMap) : List String → Option (List Coord)
  | [] => some []
  | j :: js =>
      match (convert_move_to_coordinates sp (("1-") ++ j)).2.1 with
      | none => none
      | some c => (jumpCoords sp js).map (fun cs => c :: cs)

theorem flatMap_of_jumpCoords (sp : SquareMap) (o : Coord)
    (js : List String) (jcs : List Coord) (h : jumpCoords sp js = some jcs) :
    (js.flatMap (fun j =>
      match (convert_move_to_coordinates sp (("1-") ++ j)).2.1 with
      | some jc => [Event.click (o.1 + jc.1) (o.2 + jc.2), Event.settle]
      | none => [])) =
    jcs.flatMap (fun jc => [Event.click (o.1 + jc.1) (o.2 + jc.2), Event.settle]) := by
  induction js generalizing jcs with
  | nil =>
      simp only [jumpCoords, Option.some.injEq] at h
      subst h
      rfl
  | cons j js ih =>
      simp only [jumpCoords] at h
      rcases hj : (convert_move_to_coordinates sp (("1-") ++ j)).2.1 with _ | c
      · rw [hj] at h; exact Option.noConfusion h
      · rw [hj] at h
        rcases hrec : jumpCoords sp js with _ | cs
        · rw [hrec] at h; exact Option.noConfusion h
        · rw [hrec] at h
          have h' : c :: cs = jcs := by simpa using h
          subst h'
          simp only [List.flatMap_cons, hj, ih cs hrec]

/-! ## C4 — the executor's click chain -/

/-- C4: with every needed square present in the calibration map, a capture
token (more than two fields, so `parts[1:]` is its non-empty jump chain,
ending with the destination) produces exactly one click at the `from`
square's coordinates followed by one click per jump-chain square in order —
the final hop click lands on the destination, and no separate destination
click is appended — while a simple token `A-B` produces exactly one click at
`A` then one at `B`; every click is followed by the fixed settle delay. -/
theorem C4_executor_click_chain :
    (∀ (w : WinEnv) (cf : CalibFile) (move : String) (fc tc : Coord)
        (caps : List String) (jcs : List Coord),
        convert_move_to_coordinates (load_calibration_data cf) move = (some fc, some tc, caps) →
        ¬ caps = [] →
        jumpCoords (load_calibration_data cf) caps = some jcs →
        execute_move_in_checkerboard w cf move =
          ⟨true,
            Event.click ((winOrigin w).1 + fc.1) ((winOrigin w).2 + fc.2) :: Event.settle ::
              jcs.flatMap (fun jc =>
                [Event.click ((winOrigin w).1 + jc.1) ((winOrigin w).2 + jc.2), Event.settle]),
            [("Move executed successfully in checkerboard")]⟩) ∧
    (∀ (w : WinEnv) (cf : CalibFile) (move : String) (fc tc : Coord),
        convert_move_to_coordinates (load_calibration_data cf) move = (some fc, some tc, []) →
        execute_move_in_checkerboard w cf move =
          ⟨true,
            [Event.click ((winOrigin w).1 + fc.1) ((winOrigin w).2 + fc.2), Event.settle,
             Event.click ((winOrigin w).1 + tc.1) ((winOrigin w).2 + tc.2), Event.settle],
            [("Move executed successfully in checkerboard")]⟩) := by
  constructor
  · intro w cf move fc tc caps jcs hconv hne hjc
    unfold execute_move_in_checkerboard
    rw [hconv]
    have hie : caps.isEmpty = false := by
      cases caps with
      | nil => exact absurd rfl hne
      | cons c cs => rfl
    simp only [hie, Bool.false_eq_true, if_false,
      flatMap_of_jumpCoords (load_calibration_data cf) (winOrigin w) caps jcs hjc]
    rfl
  · intro w cf move fc tc hconv
    unfold execute_move_in_checkerboard
    rw [hconv]
    rfl

theorem C4_executor_click_chain_witness :
    execute_move_in_checkerboard ⟨none, true⟩ CalibFile.absent ("12x19x26") =
      ⟨true, [Event.click 350 150, Event.settle, Event.click 250 250, Event.settle,
              Event.click 150 350, Event.settle],
        [("Move executed successfully in checkerboard")]⟩ ∧
    execute_move_in_checkerboard ⟨none, true⟩ CalibFile.absent ("11-15") =
      ⟨true, [Event.click 250 150, Event.settle, Event.click 300 200, Event.settle],
        [("Move executed successfully in checkerboard")]⟩ := by
  constructor
  · rw [C4_executor_click_chain.1 ⟨none, true⟩ CalibFile.absent ("12x19x26")
      (350, 150) (150, 350) [("19"), ("26")] [(250, 250), (150, 350)]
      (by decide) (by decide) (by decide)]
    decide
  · rw [C4_executor_click_chain.2 ⟨none, true⟩ CalibFile.absent ("11-15")
      (250, 150) (300, 200) (by decide)]
    decide

/-! ## C8 — missing calibration entry for an endpoint -/

/-- C8: when the (normalised) calibration map has no entry for the move's
`from` square or its `to` square, `execute_move_in_checkerboard` returns
`False`, logs the diagnostic, and emits no clicks (and no other input
events) at all. -/
theorem C8_missing_endpoint :
    ∀ (w : WinEnv) (cf : CalibFile) (move : String) (m : SquareMap)
      (a b : Int) (caps : List String),
      normalizeIfStr (load_calibration_data cf) = some m →
      parse_move move = some (a, b, caps) →
      (dictGetInt m a = none ∨ dictGetInt m b = none) →
      execute_move_in_checkerboard w cf move =
        ⟨false, [], [("Could not convert move to coordinates")]⟩ := by
  intro w cf move m a b caps hnorm hparse hmiss
  unfold execute_move_in_checkerboard
  have hconv : convert_move_to_coordinates (load_calibration_data cf) move =
      (dictGetInt m a, dictGetInt m b, caps) := by
    unfold convert_move_to_coordinates
    rw [hnorm, hparse]
  rw [hconv]
  rcases hmiss with hm | hm
  · rw [hm]
  · rw [hm]
    rcases dictGetInt m a with _ | c <;> rfl

/-- A calibration file (string keys, as JSON produces) missing square 7. -/
def strMapMissing7 : SquareMap :=
  [(PyKey.str ("1"), (50, 50)), (PyKey.str ("11"), (250, 150))]

theorem C8_missing_endpoint_witness :
    execute_move_in_checkerboard ⟨none, true⟩ (CalibFile.present strMapMissing7) ("7-11") =
      ⟨false, [], [("Could not convert move to coordinates")]⟩ :=
  C8_missing_endpoint ⟨none, true⟩ (CalibFile.present strMapMissing7) ("7-11")
    [(PyKey.int 1, (50, 50)), (PyKey.int 11, (250, 150))] 7 11 []
    (by decide) (by decide) (Or.inl (by decide))

/-! ## C9 — the built-in default calibration map -/

set_option maxRecDepth 10000 in
/-- C9: with no calibration file on disk, `load_calibration_data` returns
the built-in default map; that map has an entry for every square index
1..32, its 32 coordinate pairs are pairwise distinct, and converting any
simple `a-b` token over squares 1..32 against it yields coordinates for
both endpoints — so conversion never fails merely because calibration was
never performed. -/
theorem C9_default_calibration :
    load_calibration_data CalibFile.absent = default_square_positions ∧
    ((List.range' 1 32).all fun n =>
      (dictGetInt default_square_positions (n : Int)).isSome) = true ∧
    (default_square_positions.map (fun kv => kv.2)).Nodup ∧
    ((List.range' 1 32).all fun a => (List.range' 1 32).all fun b =>
      (convert_move_to_coordinates (load_calibration_data CalibFile.absent)
        (((natRepr a).asString) ++ ("-") ++ ((natRepr b).asString))).1.isSome &&
      (convert_move_to_coordinates (load_calibration_data CalibFile.absent)
        (((natRepr a).asString) ++ ("-") ++ ((natRepr b).asString))).2.1.isSome) = true :=
  ⟨rfl, by decide, by decide, by decide⟩

/-! ## C10 — totality of `convert_move_to_coordinates` -/

theorem mapM_norm_str (l : List (Nat × Coord)) :
    (l.map fun kv => (PyKey.str ((natRepr kv.1).asString), kv.2)).mapM
      (fun kv => match kv.1 with
        | PyKey.str s => (pyInt? s).map (fun i => (PyKey.int i, kv.2))
        | PyKey.int i => some ((PyKey.int i, kv.2))) =
    some (l.map fun kv => (PyKey.int (kv.1 : Int), kv.2)) := by
  induction l with
  | nil => rfl
  | cons kv l ih =>
      have hk : pyInt? ((natRepr kv.1).asString) = some ((kv.1 : Int)) :=
        pyIntChars_natRepr kv.1
      simp only [List.map_cons, List.mapM_cons, ih, hk]
      rfl

theorem normalizeIfStr_str_map (m : List (Nat × Coord)) (hne : ¬ m = []) :
    normalizeIfStr (m.map fun kv => (PyKey.str ((natRepr kv.1).asString), kv.2)) =
      some (m.map fun kv => (PyKey.int (kv.1 : Int), kv.2)) := by
  cases m with
  | nil => exact absurd rfl hne
  | cons kv0 rest => exact mapM_norm_str (kv0 :: rest)

/-- C10: `convert_move_to_coordinates` is total and never raises — a token
whose first or last field fails `int(...)` yields `(None, None, [])` over
any map; the empty map, whose first-key probe raises `IndexError` inside
the `try`, yields `(None, None, [])` for any token; and a JSON-style map
with decimal string keys behaves identically to the same map with int keys
(keys are normalised before lookup). -/
theorem C10_convert_total :
    (∀ (sp : SquareMap) (move : String), parse_move move = none →
        convert_move_to_coordinates sp move = (none, none, [])) ∧
    (∀ move : String, convert_move_to_coordinates [] move = (none, none, [])) ∧
    (∀ (m : List (Nat × Coord)) (move : String),
        convert_move_to_coordinates
          (m.map fun kv => (PyKey.str ((natRepr kv.1).asString), kv.2)) move =
        convert_move_to_coordinates (m.map fun kv => (PyKey.int (kv.1 : Int), kv.2)) move) := by
  refine ⟨?_, ?_, ?_⟩
  · intro sp move hparse
    unfold convert_move_to_coordinates
    rcases hn : normalizeIfStr sp with _ | m
    · rfl
    · rw [hparse]
  · intro move
    rfl
  · intro m move
    cases m with
    | nil => rfl
    | cons kv0 rest =>
        unfold convert_move_to_coordinates
        rw [normalizeIfStr_str_map (kv0 :: rest) (by simp)]
        rfl

theorem C10_convert_total_witness :
    convert_move_to_coordinates default_square_positions ("abc") = (none, none, []) ∧
    convert_move_to_coordinates [] ("11-15") = (none, none, []) ∧
    convert_move_to_coordinates
        ([((7 : Nat), ((300 : Int), (100 : Int)))].map
          fun kv => (PyKey.str ((natRepr kv.1).asString), kv.2)) ("7-7") =
      convert_move_to_coordinates
        ([((7 : Nat), ((300 : Int), (100 : Int)))].map
          fun kv => (PyKey.int (kv.1 : Int), kv.2)) ("7-7") :=
  ⟨C10_convert_total.1 default_square_positions ("abc") (by decide),
   C10_convert_total.2.1 ("11-15"),
   C10_convert_total.2.2 [((7 : Nat), ((300 : Int), (100 : Int)))] ("7-7")⟩

/-! ## C3 — the HTTP relay's POST dispatch -/

/-- C3: the claim describes the module-level `do_POST` body, and that body
does dispatch as claimed (200/400/500 JSON responses, worker thread on
success) — but `do_POST` is written at column 0, outside
`class MoveHandler`, so the handler has no `do_POST` method and the server
actually answers every `POST` with a 501 `Unsupported method` error page,
never reaching those responses. -/
theorem C3_post_dispatch :
    handleRelayRequest ("POST") ⟨17, PostPayload.obj (some ("11-15")), none⟩ =
      (RelayResponse.httpError 501 ("Unsupported method ('POST')"), false) ∧
    moveHandlerMethods.contains (("do_POST")) = false ∧
    relay_do_POST ⟨17, PostPayload.obj (some ("11-15")), none⟩ =
      (RelayResponse.json 200 RelayObj.statusOk, true) ∧
    relay_do_POST ⟨0, PostPayload.obj (some ("11-15")), none⟩ =
      (RelayResponse.json 400 (RelayObj.errorField ("Empty request")), false) ∧
    relay_do_POST ⟨10, PostPayload.badJson, none⟩ =
      (RelayResponse.json 400 (RelayObj.errorField ("Invalid JSON")), false) ∧
    relay_do_POST ⟨10, PostPayload.obj none, none⟩ =
      (RelayResponse.json 400 (RelayObj.errorField ("No move in request")), false) ∧
    relay_do_POST ⟨10, PostPayload.obj (some ("9-13")), some ("boom")⟩ =
      (RelayResponse.json 500 (RelayObj.errorField ("boom")), false) := by
  decide

/-! ## C6 — detection priority in `get_engine_move` -/

/-- C6: the aggregator consults its four methods in strict priority order —
log files, then screen OCR, then clipboard, then temp files — stopping at
the first that yields a move; in particular, whenever the log scan yields a
move, that move is returned whatever the screen (OCR), clipboard or
temp-file state would have yielded. -/
theorem C6_detection_priority :
    ∀ (logs : List (Option String)) (screen : ScreenEnv) (clip : ClipEnv)
      (temps : List (Option String)),
      (∀ m, logs.findSome? (fun c? => c?.bind scanLogContent) = some m →
        get_engine_move logs screen clip temps = some m) ∧
      (logs.findSome? (fun c? => c?.bind scanLogContent) = none →
        (∀ m, detect_move_from_screen screen = some m →
          get_engine_move logs screen clip temps = some m) ∧
        (detect_move_from_screen screen = none →
          (∀ m, monitor_clipboard_for_move clip = some m →
            get_engine_move logs screen clip temps = some m) ∧
          (monitor_clipboard_for_move clip = none →
            get_engine_move logs screen clip temps =
              temps.findSome? (fun c? =>
                c?.bind (fun c => reSearch movePat (stripWS c.data).asString))))) := by
  intro logs screen clip temps
  refine ⟨?_, ?_⟩
  · intro m hm
    unfold get_engine_move
    rw [hm]
  · intro hl
    refine ⟨?_, ?_⟩
    · intro m hm
      unfold get_engine_move
      rw [hl, hm]
    · intro hs
      refine ⟨?_, ?_⟩
      · intro m hm
        unfold get_engine_move
        rw [hl, hs, hm]
      · intro hc
        unfold get_engine_move
        rw [hl, hs, hc]

theorem C6_detection_priority_witness :
    get_engine_move [some ("9-13\n11-15")] (ScreenEnv.window [some ("22-18")])
        ⟨false, (""), ("")⟩ [] = some ("11-15") ∧
    detect_move_from_screen (ScreenEnv.window [some ("22-18")]) = some ("22-18") := by
  refine ⟨?_, by decide⟩
  exact (C6_detection_priority [some ("9-13\n11-15")] (ScreenEnv.window [some ("22-18")])
    ⟨false, (""), ("")⟩ []).1 ("11-15") (by decide)

/-! ## C1 — totality and defaults of the move resolver -/

/-- C1 (amended): `get_checkerboard_move` never returns an empty string; it
returns the default `"1-5"` whenever the engine application cannot be found
or launched, the opponent move cannot be executed, the engine-response wait
fails, no move is detected, or an exception reaches its `try`; and when
detection yields a non-empty token with no prior failure, it returns that
token verbatim (the token is whatever the detector matched — it need not
parse under the numeric move grammar, see the counterexample). -/
theorem C1_resolver_default :
    ∀ (env : ResolverEnv) (move : String) (history : List String),
      (¬ get_checkerboard_move env move history = ("")) ∧
      ((env.raised = true ∨ find_checkerboard_exe env.proc = false ∨
        (execute_move_in_checkerboard env.win env.calib move).ok = false ∨
        wait_for_engine_response env.waitRaised = false ∨
        get_engine_move env.logs env.screen env.clip env.temps = none) →
        get_checkerboard_move env move history = ("1-5")) ∧
      (∀ m, env.raised = false → find_checkerboard_exe env.proc = true →
        (execute_move_in_checkerboard env.win env.calib move).ok = true →
        wait_for_engine_response env.waitRaised = true →
        get_engine_move env.logs env.screen env.clip env.temps = some m →
        ¬ m = ("") → get_checkerboard_move env move history = m) := by
  intro env move history
  refine ⟨?_, ?_, ?_⟩
  · unfold get_checkerboard_move
    split_ifs
    · decide
    · decide
    · decide
    · decide
    · rcases hm : get_engine_move env.logs env.screen env.clip env.temps with _ | m
      · decide
      · by_cases hms : m = ("")
        · simp [hms]
        · simp [hms]
  · intro h
    rcases h with h | h | h | h | h <;>
      simp [get_checkerboard_move, h]
  · intro m h1 h2 h3 h4 h5 h6
    simp [get_checkerboard_move, h1, h2, h3, h4, h5, h6]

/-- A per-request environment in which everything succeeds and a log file
holds the engine's move. -/
def goodEnv : ResolverEnv :=
  ⟨false, ⟨true, false, false⟩, ⟨none, true⟩, CalibFile.absent, false,
    [some ("11-15")], ScreenEnv.noWindow, ⟨false, (""), ("")⟩, []⟩

/-- An environment in which the engine application can be neither found nor
launched. -/
def deadEnv : ResolverEnv :=
  ⟨false, ⟨false, false, false⟩, ⟨none, true⟩, CalibFile.absent, false,
    [], ScreenEnv.noWindow, ⟨false, (""), ("")⟩, []⟩

theorem C1_resolver_default_witness :
    (¬ get_checkerboard_move goodEnv ("9-13") [] = ("")) ∧
    get_checkerboard_move deadEnv ("9-13") [] = ("1-5") ∧
    get_checkerboard_move goodEnv ("9-13") [] = ("11-15") :=
  ⟨(C1_resolver_default goodEnv ("9-13") []).1,
   (C1_resolver_default deadEnv ("9-13") []).2.1 (Or.inr (Or.inl (by decide))),
   (C1_resolver_default goodEnv ("9-13") []).2.2 ("11-15")
     (by decide) (by decide) (by decide) (by decide) (by decide) (by decide)⟩

/-- An environment in which detection succeeds only through the OCR path,
whose algebraic pattern matches `A1-B2`. -/
def ocrEnv : ResolverEnv :=
  ⟨false, ⟨true, false, false⟩, ⟨none, true⟩, CalibFile.absent, false,
    [none], ScreenEnv.window [some ("A1-B2")], ⟨false, (""), ("")⟩, []⟩

/-- C1 fails as stated: with detection succeeding through the OCR algebraic
pattern, the resolver returns `A1-B2`, which is not a valid token of the
spec's move-notation grammar and does not parse in the code's own
`convert_move_to_coordinates`. -/
theorem C1_ocr_counterexample :
    get_checkerboard_move ocrEnv ("11-15") [] = ("A1-B2") ∧
    spec_valid_move_token ("A1-B2") = false ∧
    parse_move ("A1-B2") = none := by
  refine ⟨by decide, by decide, by decide⟩

/-! ## C2 and C7 — the channel loop -/

/-- A concrete decoder: payload byte `1` is a truthy `getMove` message,
payload byte `2` a truthy message with the unrecognised command `foo`,
anything else fails to decode. -/
def sampleDecode : List Nat → Option IncomingMsg := fun payload =>
  if payload = [1] then some ⟨true, some ("getMove"), some ("11-15"), []⟩
  else if payload = [2] then some ⟨true, some ("foo"), none, []⟩
  else none

/-- C2 fails as stated: after a frame whose payload cannot be decoded, the
loop does NOT continue with the next frame — here a malformed frame is
followed by a well-formed `getMove` frame which, on its own, produces a
response, yet the combined stream produces no response at all. -/
theorem C2_dropped_frame_counterexample :
    mainLoop sampleDecode [goodEnv, goodEnv] [1, 0, 0, 0, 9, 1, 0, 0, 0, 1] = [] ∧
    mainLoop sampleDecode [goodEnv] [1, 0, 0, 0, 1] = [SentMsg.moveResp ("11-15")] := by
  refine ⟨by decide, by decide⟩

/-- C2 (amended): a frame with an undecodable payload is logged and makes
`read_message` return `None`, which the main loop treats exactly like
end-of-stream — the message is dropped and the loop terminates cleanly,
without reading any further frame. -/
theorem C2_malformed_frame_terminates :
    ∀ (decode : List Nat → Option IncomingMsg) (envs : List ResolverEnv)
      (b : Nat) (bs : List Nat),
      decode (((b :: bs).drop 4).take (fromLE ((b :: bs).take 4))) = none →
      (read_message decode (b :: bs)).1 = none ∧
      mainLoop decode envs (b :: bs) = [] := by
  intro decode envs b bs hd
  constructor
  · exact hd
  · unfold mainLoop
    rw [List.length_cons]
    simp only [runLoop, read_message, hd]

theorem C2_malformed_frame_terminates_witness :
    (read_message sampleDecode [1, 0, 0, 0, 9]).1 = none ∧
    mainLoop sampleDecode [] [1, 0, 0, 0, 9] = [] :=
  C2_malformed_frame_terminates sampleDecode [] 1 [0, 0, 0, 9] (by decide)

/-- C7 fails as stated: a message whose command is unrecognised (`foo`)
produces no response at all — in particular not the claimed
`{type: error, message: "Unknown command: foo"}` object. -/
theorem C7_no_error_response_counterexample :
    mainLoop sampleDecode [goodEnv] [1, 0, 0, 0, 2] = [] ∧
    ¬ mainLoop sampleDecode [goodEnv] [1, 0, 0, 0, 2] =
        [SentMsg.errorResp ("Unknown command: foo")] := by
  refine ⟨by decide, by decide⟩

/-- C7 (amended): a truthy message whose command is not `getMove` is
silently ignored — the loop emits nothing for it and continues with the
rest of the stream. -/
theorem C7_unknown_command_silent :
    ∀ (decode : List Nat → Option IncomingMsg) (envs : List ResolverEnv)
      (stream rest : List Nat) (msg : IncomingMsg),
      read_message decode stream = (some msg, rest) →
      msg.isTruthy = true →
      ¬ msg.command = some ("getMove") →
      mainLoop decode envs stream = mainLoop decode envs rest := by
  intro decode envs stream rest msg hr ht hc
  have hlt : rest.length < stream.length := read_message_rest_lt decode stream msg rest hr
  cases stream with
  | nil => simp [read_message] at hr
  | cons b bs =>
      unfold mainLoop
      rw [List.length_cons]
      simp only [runLoop, hr]
      simp only [ht, Bool.not_true, Bool.false_eq_true, if_false, if_neg hc]
      exact runLoop_fuel_congr decode bs.length rest.length envs rest
        (by simp at hlt; omega) (by omega)

theorem C7_unknown_command_silent_witness :
    mainLoop sampleDecode [goodEnv] [1, 0, 0, 0, 2] = mainLoop sampleDecode [goodEnv] [] :=
  C7_unknown_command_silent sampleDecode [goodEnv] [1, 0, 0, 0, 2] []
    ⟨true, some ("foo"), none, []⟩ (by decide) (by decide) (by decide)

/-! ## C5 — the notation codec round trip -/

/-- C5 fails as stated (Scenario C): the code's parse keeps all fields after
the first — the destination included — as its capture component, so
`12x19x26` parses with capture component `["19", "26"]`, not `[19]`. -/
theorem C5_captures_counterexample :
    (convert_move_to_coordinates (load_calibration_data CalibFile.absent)
      ("12x19x26")).2.2 = [("19"), ("26")] ∧
    ¬ (convert_move_to_coordinates (load_calibration_data CalibFile.absent)
      ("12x19x26")).2.2 = [("19")] := by
  refine ⟨by decide, by decide⟩

theorem data_asString (l : List Char) : (l.asString).data = l := rfl

theorem map_data_asString (l : List (List Char)) :
    (l.map List.asString).map String.data = l := by
  rw [List.map_map]
  have h : (String.data ∘ List.asString) = id := funext (fun _ => rfl)
  rw [h, List.map_id]

theorem getLast?_cons_of_ne_nil {α : Type} (x : α) (l : List α) (h : ¬ l = []) :
    (x :: l).getLast? = l.getLast? := by
  cases l with
  | nil => exact absurd rfl h
  | cons y t => exact List.getLast?_cons_cons

theorem getLast?_map_eq {α β : Type} (f : α → β) (l : List α) :
    (l.map f).getLast? = l.getLast?.map f := by
  induction l with
  | nil => rfl
  | cons a t ih =>
      cases t with
      | nil => rfl
      | cons b t' =>
          simp only [List.map_cons] at ih ⊢
          rw [List.getLast?_cons_cons, List.getLast?_cons_cons, ih]

/-- C5 (amended): the code's parse keeps `parts[1:]` — destination included —
as the capture component. With the spec's `format` adapted to that
representation: Scenario C becomes `parse("12x19x26") = (12, 26,
["19","26"])` with `format` giving back `"12x19x26"`; `format(parse(t)) = t`
holds for every token whose fields are canonical decimal numerals and which
is either a capture token of more than two fields or a simple two-field
token (a single-capture `AxB` collapses to `A-B` and is excluded); and
`parse(format(m)) = m` holds for every move whose capture chain is empty or
has at least two squares ending with the destination. -/
theorem C5_roundtrip :
    (parse_move ("12x19x26") = some (12, 26, [("19"), ("26")]) ∧
     format_move 12 [("19"), ("26")] 26 = ("12x19x26")) ∧
    (∀ (t : String) (a b : Int) (caps : List String),
      parse_move t = some (a, b, caps) →
      (∀ p ∈ parseParts t, ∃ n : Nat, p = natRepr n) →
      ((t.data.contains ('x') = true ∧ 2 < (parseParts t).length) ∨
       (t.data.contains ('x') = false ∧ (parseParts t).length = 2)) →
      format_move a.toNat caps b.toNat = t) ∧
    (∀ (a b : Nat) (cs : List Nat), 2 ≤ cs.length → cs.getLast? = some b →
      parse_move (format_move a (cs.map fun n => (natRepr n).asString) b) =
        some ((a : Int), (b : Int), cs.map fun n => (natRepr n).asString)) ∧
    (∀ (a b : Nat), parse_move (format_move a [] b) = some ((a : Int), (b : Int), [])) := by
  refine ⟨⟨by decide, by decide⟩, ?_, ?_, ?_⟩
  · -- format (parse t) = t on canonical tokens
    intro t a b caps hp hcanon hshape
    rcases hshape with ⟨hx, hlen⟩ | ⟨hx, hlen⟩
    · -- capture token: split on 'x', more than two fields
      have hparts : parseParts t = splitChars 'x' t.data := by
        unfold parseParts
        rw [hx]
        simp
      rcases hps : parseParts t with _ | ⟨p0, rest⟩
      · rw [hps] at hlen; simp at hlen
      rcases rest with _ | ⟨p1, rest'⟩
      · rw [hps] at hlen; simp at hlen
      -- canonical fields
      obtain ⟨n0, hn0⟩ := hcanon p0 (by rw [hps]; simp)
      have hlast_mem : (p1 :: rest').getLast (by simp) ∈ parseParts t := by
        rw [hps]
        exact List.mem_cons_of_mem _ (List.getLast_mem _)
      obtain ⟨nk, hnk⟩ := hcanon _ hlast_mem
      -- compute the parse
      have hhead : (parseParts t).headD [] = p0 := by rw [hps]; rfl
      have hlastq : (parseParts t).getLastD [] = (p1 :: rest').getLast (by simp) := by
        rw [hps, List.getLastD_eq_getLast?, List.getLast?_cons_cons,
          List.getLast?_eq_getLast_of_ne_nil (by simp)]
        rfl
      have hcomp : parse_move t =
          some ((n0 : Int), (nk : Int), ((parseParts t).drop 1).map List.asString) := by
        unfold parse_move
        rw [hhead, hlastq, hn0, hnk, pyIntChars_natRepr, pyIntChars_natRepr]
        rw [if_pos (by rw [hps]; rw [hps] at hlen; exact hlen)]
      rw [hcomp] at hp
      obtain ⟨ha, hb, hcaps⟩ :
          (n0 : Int) = a ∧ (nk : Int) = b ∧
            ((parseParts t).drop 1).map List.asString = caps := by
        simpa [Prod.ext_iff] using hp
      subst ha
      subst hcaps
      rw [hps]
      simp only [List.drop_succ_cons, List.drop_zero]
      unfold format_move
      rw [if_neg (by simp)]
      rw [Int.toNat_natCast, map_data_asString]
      refine String.toList_inj.mp ?_
      show ((natRepr n0).asString ++ ("x") ++ (joinSep 'x' (p1 :: rest')).asString).data = t.data
      rw [string_data_append, string_data_append, data_asString, data_asString]
      have ht : t.data = joinSep 'x' (p0 :: p1 :: rest') := by
        conv_lhs => rw [← joinSep_splitChars 'x' t.data, ← hparts, hps]
      rw [ht, hn0]
      show natRepr n0 ++ [('x')] ++ joinSep 'x' (p1 :: rest') =
        natRepr n0 ++ ('x') :: joinSep 'x' (p1 :: rest')
      simp
    · -- simple token: split on '-', exactly two canonical fields
      have hparts : parseParts t = splitChars '-' t.data := by
        unfold parseParts
        rw [hx]
        simp
      obtain ⟨p0, p1, hps⟩ := List.length_eq_two.mp hlen
      obtain ⟨n0, hn0⟩ := hcanon p0 (by rw [hps]; simp)
      obtain ⟨n1, hn1⟩ := hcanon p1 (by rw [hps]; simp)
      have hcomp : parse_move t = some ((n0 : Int), (n1 : Int), []) := by
        unfold parse_move
        rw [hps]
        have h1 : ([p0, p1] : List (List Char)).headD [] = p0 := rfl
        have h2 : ([p0, p1] : List (List Char)).getLastD [] = p1 := rfl
        rw [h1, h2, hn0, hn1, pyIntChars_natRepr, pyIntChars_natRepr,
          if_neg (by simp)]
      rw [hcomp] at hp
      obtain ⟨ha, hb, hcaps⟩ :
          (n0 : Int) = a ∧ (n1 : Int) = b ∧ ([] : List String) = caps := by
        simpa [Prod.ext_iff] using hp
      subst ha
      subst hb
      subst hcaps
      unfold format_move
      rw [if_pos (by simp), Int.toNat_natCast, Int.toNat_natCast]
      refine String.toList_inj.mp ?_
      show ((natRepr n0).asString ++ ("-") ++ (natRepr n1).asString).data = t.data
      rw [string_data_append, string_data_append, data_asString, data_asString]
      have ht : t.data = joinSep '-' [p0, p1] := by
        conv_lhs => rw [← joinSep_splitChars '-' t.data, ← hparts, hps]
      rw [ht, hn0, hn1]
      show natRepr n0 ++ [('-')] ++ natRepr n1 =
        natRepr n0 ++ ('-') :: joinSep '-' [natRepr n1]
      simp [joinSep]
  · -- parse (format m) = m: capture chain of length ≥ 2 ending at the destination
    intro a b cs hlen hlast
    have hcs_ne : ¬ cs = [] := by
      cases cs with
      | nil => simp at hlen
      | cons c0 cs' => simp
    have hfuns : (String.data ∘ fun n : Nat => (natRepr n).asString) = natRepr :=
      funext (fun _ => rfl)
    have hfmt : (format_move a (cs.map fun n => (natRepr n).asString) b).data =
        natRepr a ++ ('x') :: joinSep 'x' (cs.map natRepr) := by
      unfold format_move
      rw [if_neg (by
        cases cs with
        | nil => exact absurd rfl hcs_ne
        | cons c0 cs' => simp)]
      rw [string_data_append, string_data_append, data_asString, data_asString,
        List.map_map, hfuns]
      show natRepr a ++ [('x')] ++ joinSep 'x' (cs.map natRepr) = _
      simp
    have hnox : ∀ p ∈ cs.map natRepr, ∀ c ∈ p, ¬ c = ('x') := by
      intro p hpm
      obtain ⟨n, _, hn⟩ := List.mem_map.mp hpm
      subst hn
      exact natRepr_no_char n ('x') (by decide)
    have hsplitTail : splitChars 'x' (joinSep 'x' (cs.map natRepr)) = cs.map natRepr :=
      splitChars_joinSep 'x' (cs.map natRepr) (by simpa using hcs_ne) hnox
    have hpp : parseParts (format_move a (cs.map fun n => (natRepr n).asString) b) =
        natRepr a :: cs.map natRepr := by
      unfold parseParts
      rw [hfmt]
      rw [if_pos (by
        apply (contains_iff_mem _ _).mpr
        simp)]
      have hstep : splitChars 'x' (('x') :: joinSep 'x' (cs.map natRepr)) =
          [] :: cs.map natRepr := by
        simp [splitChars, hsplitTail]
      have := splitChars_append 'x' (natRepr a) (('x') :: joinSep 'x' (cs.map natRepr))
        [] (cs.map natRepr) (natRepr_no_char a ('x') (by decide)) hstep
      simpa using this
    have hmap_ne : ¬ cs.map natRepr = [] := by
      cases cs with
      | nil => exact absurd rfl hcs_ne
      | cons c0 cs' => simp
    have hlast' : (natRepr a :: cs.map natRepr).getLastD [] = natRepr b := by
      rw [List.getLastD_eq_getLast?, getLast?_cons_of_ne_nil _ _ hmap_ne,
        getLast?_map_eq, hlast]
      rfl
    unfold parse_move
    rw [hpp]
    have hh : (natRepr a :: cs.map natRepr).headD [] = natRepr a := rfl
    rw [hh, hlast', pyIntChars_natRepr, pyIntChars_natRepr]
    rw [if_pos (by
      simp only [List.length_cons, List.length_map]
      omega)]
    have hdrop : ((natRepr a :: cs.map natRepr).drop 1).map (fun l => l.asString) =
        cs.map fun n => (natRepr n).asString := by
      rw [List.drop_succ_cons, List.drop_zero, List.map_map]
      rfl
    rw [hdrop]
  · -- parse (format m) = m: simple move
    intro a b
    have hfmt : (format_move a [] b).data = natRepr a ++ ('-') :: natRepr b := by
      unfold format_move
      show ((natRepr a).asString ++ ("-") ++ (natRepr b).asString).data = _
      rw [string_data_append, string_data_append, data_asString, data_asString]
      show natRepr a ++ [('-')] ++ natRepr b = _
      simp
    have hnox : ((format_move a [] b).data).contains ('x') = false := by
      rw [hfmt]
      apply Bool.eq_false_iff.mpr
      intro hcon
      have hm := (contains_iff_mem _ _).mp hcon
      rcases List.mem_append.mp hm with hm1 | hm2
      · exact natRepr_no_char a ('x') (by decide) _ hm1 rfl
      · rcases List.mem_cons.mp hm2 with hm3 | hm4
        · exact absurd hm3.symm (by decide)
        · exact natRepr_no_char b ('x') (by decide) _ hm4 rfl
    have hpp : parseParts (format_move a [] b) = [natRepr a, natRepr b] := by
      unfold parseParts
      rw [hnox]
      simp only [Bool.false_eq_true, if_false]
      rw [hfmt]
      have hstep : splitChars '-' (('-') :: natRepr b) = [] :: [natRepr b] := by
        simp [splitChars, splitChars_no_sep '-' (natRepr b)
          (natRepr_no_char b ('-') (by decide))]
      have := splitChars_append '-' (natRepr a) (('-') :: natRepr b)
        [] [natRepr b] (natRepr_no_char a ('-') (by decide)) hstep
      simpa using this
    unfold parse_move
    rw [hpp]
    have hh : ([natRepr a, natRepr b] : List (List Char)).headD [] = natRepr a := rfl
    have hl : ([natRepr a, natRepr b] : List (List Char)).getLastD [] = natRepr b := rfl
    rw [hh, hl, pyIntChars_natRepr, pyIntChars_natRepr, if_neg (by simp)]

theorem C5_roundtrip_witness :
    format_move ((12 : Int)).toNat [("19"), ("26")] ((26 : Int)).toNat = ("12x19x26") ∧
    parse_move (format_move 12 ([19, 26].map fun n => (natRepr n).asString) 26) =
      some ((12 : Int), (26 : Int), [19, 26].map fun n => (natRepr n).asString) ∧
    parse_move (format_move 11 [] 15) = some ((11 : Int), (15 : Int), []) := by
  refine ⟨?_, ?_, ?_⟩
  · refine C5_roundtrip.2.1 ("12x19x26") 12 26 [("19"), ("26")] (by decide) ?_
      (Or.inl ⟨by decide, by decide⟩)
    intro p hp
    have hpp : parseParts ("12x19x26") =
        [[('1'), ('2')], [('1'), ('9')], [('2'), ('6')]] := by decide
    rw [hpp] at hp
    rcases List.mem_cons.mp hp with h | hp2
    · exact ⟨12, by rw [h]; decide⟩
    rcases List.mem_cons.mp hp2 with h | hp3
    · exact ⟨19, by rw [h]; decide⟩
    rcases List.mem_cons.mp hp3 with h | hp4
    · exact ⟨26, by rw [h]; decide⟩
    · simp at hp4
  · exact C5_roundtrip.2.2.1 12 26 [19, 26] (by decide) (by decide)
  · exact C5_roundtrip.2.2.2 11 15

end PlayokBot
